import Mathlib

/-!
Verification of the login-activity analytics core of a Django user-management
backend, shallowly embedded in Lean.

Time is modelled as seconds since 1970-01-01 00:00:00 (a `Nat`); calendar
conversion follows the standard civil-from-days / days-from-civil algorithms,
and the `strftime` directives the code uses (`%Y`, `%m`, `%d`, `%U`,
`%H:%M:%S`) are reproduced over that encoding.  Python `datetime.weekday()`
(Monday = 0) and C `tm_wday` (Sunday = 0) are both modelled; `%U` is the
C-library week number `(yday + 7 - wday) / 7` with Sunday-based `wday`.

The mutable parts of the program (the `LoginActivity.save` override that
maintains the denormalized per-user counters) are embedded as explicit state
passing: a `Store` holds every recorded event and each per-user counters, and
`recordAttempt` is the transition applied once per call to the recorder.
Python dicts (`weekly_logins`, `monthly_logins`) are association lists with
insertion-ordered keys; Python keyword-argument calls are modelled by the
list of keyword names passed, checked against the list of parameter/field
names the callee accepts (an unexpected keyword raises `TypeError`).
-/

namespace TddBackend

/-! ## Calendar arithmetic (strftime semantics) -/

/-- Calendar day number of an instant: seconds since epoch, floor-divided
by 86400 (`datetime.date()` on a timestamp). -/
def dateOf (t : Nat) : Nat := t / 86400

/-- Python `datetime.weekday()`: Monday = 0 .. Sunday = 6.
Day 0 (1970-01-01) was a Thursday. -/
def pyWeekday (d : Nat) : Nat := (d + 3) % 7

/-- C `tm_wday`: Sunday = 0 .. Saturday = 6. -/
def sunWeekday (d : Nat) : Nat := (d + 4) % 7

/-- Civil date (year, month, day-of-month) of a day number, by the standard
era-based conversion (valid for all days from 1970 on). -/
def civilOfDay (d : Nat) : Nat × Nat × Nat :=
  let z := d + 719468
  let era := z / 146097
  let doe := z % 146097
  let yoe := (doe - doe / 1460 + doe / 36524 - doe / 146096) / 365
  let y := yoe + era * 400
  let doy := doe - (365 * yoe + yoe / 4 - yoe / 100)
  let mp := (5 * doy + 2) / 153
  let dd := doy - (153 * mp + 2) / 5 + 1
  let m := if mp < 10 then mp + 3 else mp - 9
  (if m ≤ 2 then y + 1 else y, m, dd)

/-- Day number of a civil date (inverse of `civilOfDay`, for dates in 1970
or later). -/
def dayOfCivil (y m dd : Nat) : Nat :=
  let y2 := if m ≤ 2 then y - 1 else y
  let era := y2 / 400
  let yoe := y2 - era * 400
  let mp := if 2 < m then m - 3 else m + 9
  let doy := (153 * mp + 2) / 5 + dd - 1
  let doe := yoe * 365 + yoe / 4 - yoe / 100 + doy
  era * 146097 + doe - 719468

def yearOfDay (d : Nat) : Nat := (civilOfDay d).1

def monthOfDay (d : Nat) : Nat := (civilOfDay d).2.1

def domOfDay (d : Nat) : Nat := (civilOfDay d).2.2

/-- Day number of January 1 of the given year. -/
def jan1Day (y : Nat) : Nat := dayOfCivil y 1 1

/-- C `tm_yday` (0-based day of year). -/
def ydayOf (d : Nat) : Nat := d - jan1Day (yearOfDay d)

/-- `strftime` directive `%U`: week of the year, Sunday as first day of the
week; days before the first Sunday are week 0. -/
def weekU (d : Nat) : Nat := (ydayOf d + 7 - sunWeekday d) / 7

/-- Two-digit zero-padded decimal. -/
def pad2 (n : Nat) : String := if n < 10 then "0" ++ toString n else toString n

/-- Four-digit zero-padded decimal (years in range need no extra padding). -/
def pad4 (n : Nat) : String :=
  if n < 10 then "000" ++ toString n
  else if n < 100 then "00" ++ toString n
  else if n < 1000 then "0" ++ toString n
  else toString n

/-- `strftime with format %Y-%m-%d` of a day number. -/
def fmtYMD (d : Nat) : String :=
  pad4 (yearOfDay d) ++ "-" ++ pad2 (monthOfDay d) ++ "-" ++ pad2 (domOfDay d)

/-- `strftime with format %Y-%m` of a day number. -/
def fmtYM (d : Nat) : String :=
  pad4 (yearOfDay d) ++ "-" ++ pad2 (monthOfDay d)

/-- `strftime with format %Y-%U` of a day number. -/
def fmtYU (d : Nat) : String :=
  pad4 (yearOfDay d) ++ "-" ++ pad2 (weekU d)

/-- `strftime with format %Y-%m-%d %H:%M:%S` of an instant. -/
def fmtDateTime (t : Nat) : String :=
  fmtYMD (dateOf t) ++ " " ++ pad2 (t % 86400 / 3600) ++ ":" ++
    pad2 (t % 3600 / 60) ++ ":" ++ pad2 (t % 60)

/-- Python `(end - start).days`: floor of the signed difference in days. -/
def rangeDays (s e : Nat) : Int := Int.fdiv ((e : Int) - (s : Int)) 86400

/-! ## Association lists standing for Python dicts -/

/-- `dict.get(k, 0)`. -/
def lookupD : List (String × Nat) → String → Nat
  | [], _ => 0
  | (k2, v) :: rest, k => if k2 = k then v else lookupD rest k

/-- `data[k] = data.get(k, 0) + 1`: increment in place, inserting new keys
at the end (Python dicts preserve insertion order). -/
def incKey : List (String × Nat) → String → List (String × Nat)
  | [], k => [(k, 1)]
  | (k2, v) :: rest, k =>
      if k2 = k then (k2, v + 1) :: rest else (k2, v) :: incKey rest k

/-- Sum of all values of the dict. -/
def sumVals : List (String × Nat) → Nat
  | [] => 0
  | (_, v) :: rest => v + sumVals rest

theorem lookupD_incKey_self (m : List (String × Nat)) (k : String) :
    lookupD (incKey m k) k = lookupD m k + 1 := by
  induction m with
  | nil => simp [incKey, lookupD]
  | cons p rest ih =>
    obtain ⟨k2, v⟩ := p
    by_cases h : k2 = k <;> simp [incKey, lookupD, h, ih]

theorem lookupD_incKey_other (m : List (String × Nat)) (k k2 : String)
    (h : k2 ≠ k) : lookupD (incKey m k) k2 = lookupD m k2 := by
  induction m with
  | nil =>
    simp only [incKey, lookupD]
    rw [if_neg (fun hh => h hh.symm)]
  | cons p rest ih =>
    obtain ⟨k3, v⟩ := p
    by_cases h3 : k3 = k <;> by_cases h4 : k3 = k2 <;>
      simp_all [incKey, lookupD]

theorem lookupD_incKey_ge (m : List (String × Nat)) (k k2 : String) :
    lookupD m k2 ≤ lookupD (incKey m k) k2 := by
  by_cases h : k2 = k
  · subst h; rw [lookupD_incKey_self]; omega
  · rw [lookupD_incKey_other m k k2 h]

theorem sumVals_incKey (m : List (String × Nat)) (k : String) :
    sumVals (incKey m k) = sumVals m + 1 := by
  induction m with
  | nil => simp [incKey, sumVals]
  | cons p rest ih =>
    obtain ⟨k2, v⟩ := p
    by_cases h : k2 = k <;> simp [incKey, sumVals, h, ih] <;> omega

/-! ## Data model: user counters and login events -/

/-- The denormalized statistics fields of `core.models.User`
(`login_count`, `last_login_timestamp`, `weekly_logins`, `monthly_logins`);
all start at zero / null / empty on user creation. -/
structure UserCounters where
  login_count : Nat
  last_login_timestamp : Option Nat
  weekly_logins : List (String × Nat)
  monthly_logins : List (String × Nat)
deriving DecidableEq, Repr

def UserCounters.init : UserCounters := ⟨0, none, [], []⟩

/-- A row of `core.models.LoginActivity`.  In the model under `src/` the
`user` foreign key is non-nullable and there is no `attempted_username`
column, so a stored row always carries a user id. -/
structure LoginActivityRec where
  user : Nat
  timestamp : Nat
  ip_address : String
  user_agent : String
  success : Bool
deriving DecidableEq, Repr

/-- The week key the counter-update path computes:
`%Y-%U` of `current_time - timedelta(days=current_time.weekday())`,
i.e. of the Monday of the Monday-aligned week of the event. -/
def weekKeySave (t : Nat) : String :=
  fmtYU (dateOf t - pyWeekday (dateOf t))

/-- The month key the counter-update path computes:
`%Y-%m` of `current_time`. -/
def monthKeySave (t : Nat) : String := fmtYM (dateOf t)

/-- The week key the ranged statistics mode computes for an event:
`%Y-%U` of `activity.timestamp`. -/
def weekKeyStats (t : Nat) : String := fmtYU (dateOf t)

/-- The month key the ranged statistics mode computes for an event:
`%Y-%m` of `activity.timestamp`. -/
def monthKeyStats (t : Nat) : String := fmtYM (dateOf t)

/-- `LoginActivity.save` for a newly created row: after the row is stored,
and only when `success` is true, increment the `login_count` of the owning user
by one (a store-level F-expression increment), set
`last_login_timestamp` to the timestamp of the event, and bump the week and month
buckets keyed as the save path keys them.  The `auto_now_add`
timestamp and the `timezone.now()` the key computation reads are the same
save instant, so both are `e.timestamp` here. -/
def loginActivitySave (c : UserCounters) (e : LoginActivityRec) :
    UserCounters :=
  if e.success then
    { login_count := c.login_count + 1
      last_login_timestamp := some e.timestamp
      weekly_logins := incKey c.weekly_logins (weekKeySave e.timestamp)
      monthly_logins := incKey c.monthly_logins (monthKeySave e.timestamp) }
  else c

/-- The whole analytics state: every stored login event plus the counter
fields of each user. -/
structure Store where
  counters : Nat → UserCounters
  events : List LoginActivityRec

def Store.init : Store := ⟨fun _ => UserCounters.init, []⟩

/-- One call to the recorder: append the event row and run the `save`
override against the counters of its owner. -/
def recordAttempt (s : Store) (e : LoginActivityRec) : Store :=
  { counters := fun u =>
      if u = e.user then loginActivitySave (s.counters u) e else s.counters u
    events := s.events ++ [e] }

/-- A sequence of recorded attempts applied to the empty store. -/
def applyAttempts (es : List LoginActivityRec) : Store :=
  List.foldl recordAttempt Store.init es

/-- Events of user `u` that were successful. -/
def successEventsOf (s : Store) (u : Nat) : List LoginActivityRec :=
  s.events.filter fun e => e.user == u && e.success

theorem successEventsOf_record (s : Store) (e : LoginActivityRec) (u : Nat) :
    successEventsOf (recordAttempt s e) u =
      successEventsOf s u ++
        (if e.user == u && e.success then [e] else []) := by
  simp only [successEventsOf, recordAttempt, List.filter_append]
  by_cases h : (e.user == u && e.success) = true <;> simp [h]

/-- The per-step counter invariant: the `login_count` of each user equals the
number of stored successful events of that user. -/
def countInv (s : Store) : Prop :=
  ∀ u, (s.counters u).login_count = (successEventsOf s u).length

theorem countInv_init : countInv Store.init := by
  intro u; simp [Store.init, UserCounters.init, successEventsOf, countInv]

theorem countInv_step (s : Store) (e : LoginActivityRec)
    (h : countInv s) : countInv (recordAttempt s e) := by
  intro u
  rw [successEventsOf_record]
  by_cases hu : u = e.user
  · subst hu
    by_cases hs : e.success = true
    · simp [recordAttempt, loginActivitySave, hs, h e.user]
    · simp only [Bool.not_eq_true] at hs
      simp [recordAttempt, loginActivitySave, hs, h e.user]
  · have : (e.user == u) = false := by
      simp [beq_iff_eq]; exact fun hh => hu hh.symm
    simp [recordAttempt, hu, this, h u]

theorem countInv_foldl (es : List LoginActivityRec) :
    ∀ s, countInv s → countInv (List.foldl recordAttempt s es) := by
  induction es with
  | nil => intro s h; simpa using h
  | cons e rest ih =>
    intro s h
    exact ih (recordAttempt s e) (countInv_step s e h)

/-- The joint map invariant: the weekly and monthly dicts of each user sum to
`login_count`, and the save-path week and month key of every stored successful event
keys are present with a strictly positive count. -/
def mapsInv (s : Store) : Prop :=
  ∀ u, sumVals (s.counters u).weekly_logins = (s.counters u).login_count
    ∧ sumVals (s.counters u).monthly_logins = (s.counters u).login_count
    ∧ ∀ e ∈ s.events, e.user = u → e.success = true →
        1 ≤ lookupD (s.counters u).weekly_logins (weekKeySave e.timestamp)
        ∧ 1 ≤ lookupD (s.counters u).monthly_logins (monthKeySave e.timestamp)

theorem mapsInv_init : mapsInv Store.init := by
  intro u
  refine ⟨rfl, rfl, ?_⟩
  intro e he
  simp [Store.init] at he

theorem mapsInv_step (s : Store) (e : LoginActivityRec)
    (h : mapsInv s) : mapsInv (recordAttempt s e) := by
  intro u
  obtain ⟨hw, hm, hev⟩ := h u
  by_cases hu : u = e.user
  · subst hu
    by_cases hs : e.success = true
    · refine ⟨?_, ?_, ?_⟩
      · simp [recordAttempt, loginActivitySave, hs, sumVals_incKey, hw]
      · simp [recordAttempt, loginActivitySave, hs, sumVals_incKey, hm]
      · intro e2 he2 hu2 hs2
        simp only [recordAttempt, List.mem_append, List.mem_singleton] at he2
        have hC : (recordAttempt s e).counters e.user
            = loginActivitySave (s.counters e.user) e := by
          simp [recordAttempt]
        rw [hC]
        simp only [loginActivitySave, hs, if_true]
        rcases he2 with h2 | h2
        · obtain ⟨l1, l2⟩ := hev e2 h2 hu2 hs2
          exact ⟨le_trans l1 (lookupD_incKey_ge _ _ _),
                 le_trans l2 (lookupD_incKey_ge _ _ _)⟩
        · subst h2
          refine ⟨?_, ?_⟩ <;> rw [lookupD_incKey_self] <;> omega
    · simp only [Bool.not_eq_true] at hs
      refine ⟨?_, ?_, ?_⟩
      · simpa [recordAttempt, loginActivitySave, hs] using hw
      · simpa [recordAttempt, loginActivitySave, hs] using hm
      · intro e2 he2 hu2 hs2
        simp only [recordAttempt, List.mem_append, List.mem_singleton] at he2
        have hC : (recordAttempt s e).counters e.user
            = loginActivitySave (s.counters e.user) e := by
          simp [recordAttempt]
        rw [hC]
        simp [loginActivitySave, hs]
        rcases he2 with h2 | h2
        · obtain ⟨l1, l2⟩ := hev e2 h2 hu2 hs2
          exact ⟨l1, l2⟩
        · subst h2; rw [hs] at hs2; cases hs2
  · have hC : (recordAttempt s e).counters u = s.counters u := by
      simp [recordAttempt, hu]
    refine ⟨?_, ?_, ?_⟩
    · simpa [hC] using hw
    · simpa [hC] using hm
    · intro e2 he2 hu2 hs2
      simp only [recordAttempt, List.mem_append, List.mem_singleton] at he2
      rw [hC]
      rcases he2 with h2 | h2
      · exact hev e2 h2 hu2 hs2
      · subst h2; exact absurd hu2.symm hu

theorem mapsInv_foldl (es : List LoginActivityRec) :
    ∀ s, mapsInv s → mapsInv (List.foldl recordAttempt s es) := by
  induction es with
  | nil => intro s h; simpa using h
  | cons e rest ih =>
    intro s h
    exact ih (recordAttempt s e) (mapsInv_step s e h)

/-- A concrete successful login event: user 1, Sunday 2025-01-12 12:00:00
(1736683200 seconds since epoch, day number 20100). -/
def demoEvent : LoginActivityRec :=
  ⟨1, 1736683200, "127.0.0.1", "Mozilla", true⟩

def demoAttempts : List LoginActivityRec := [demoEvent]

/-! ## Python keyword-argument call semantics

A Python call with keyword arguments raises `TypeError` when a passed
keyword is not among the parameters of the callee (for `Model.objects.create`,
not among the field names of the model).  The callee body is irrelevant to the
claims that hinge on this, so a call is modelled by the list of keyword
names passed, checked against the list of names accepted. -/

/-- `TypeError` check for a keyword call: the first unexpected keyword, if
any, raises. -/
def callKwargs (accepted passed : List String) : Except String Unit :=
  match passed.find? (fun k => !(accepted.contains k)) with
  | some k => .error ("TypeError: unexpected keyword argument " ++ k)
  | none => .ok ()

/-- The field names of `core.models.LoginActivity` (plus the implicit
primary key): there is no `attempted_username` column. -/
def loginActivityFields : List String :=
  ["id", "pk", "user", "timestamp", "ip_address", "user_agent", "success"]

/-- The keyword arguments `CustomTokenObtainPairSerializer.
_create_login_activity` passes to `LoginActivity.objects.create` (for both
successful and failed attempts; on success `attempted_username` is passed
as `None`, but it is passed). -/
def createLoginActivityKwargs : List String :=
  ["user", "attempted_username", "ip_address", "user_agent", "success"]

/-- Outcome of the `LoginActivity.objects.create` call inside
`_create_login_activity`. -/
def createLoginActivityResult : Except String Unit :=
  callKwargs loginActivityFields createLoginActivityKwargs

/-- `CustomTokenObtainPairSerializer.validate`, abstracted to its
control flow around the recorder: authentication succeeds or not; on
failure the serializer records a failed attempt and then raises the
`no_active_account` validation error; on success it records a successful
attempt and returns the token data.  There is no try/except around either
`_create_login_activity` call, so an exception from the recording
propagates out of `validate` (a `do`-bind on `Except`). -/
def serializerValidate (authOk : Bool) : Except String Bool :=
  if authOk then do
    createLoginActivityResult
    pure true
  else do
    createLoginActivityResult
    .error "no_active_account"

/-- `LoginTrackingMiddleware._track_login_activity`: the whole body is
wrapped in try/except Exception, so whatever the inner recording attempt
produces, the middleware returns normally. -/
def middlewareTrack (inner : Except String Unit) : Except String Unit :=
  match inner with
  | .ok _ => .ok ()
  | .error _ => .ok ()

/-- The parameters accepted by
`serializers_dashboard.get_admin_dashboard_data`. -/
def adminDashboardDataParams : List String := ["role", "me"]

/-- Keywords `AdminDashboardView.get` passes on its `user_ids` branch. -/
def adminDashboardCallUserIds : List String :=
  ["user_ids", "start_date", "end_date"]

/-- Keywords `AdminDashboardView.get` passes on its default branch. -/
def adminDashboardCallDefault : List String :=
  ["role", "filter_type", "start_date", "end_date"]

/-- Keywords `AdminDashboardView.get` passes on its `me` branch. -/
def adminDashboardCallMe : List String :=
  ["me", "start_date", "end_date"]

/-! ## Statistics engine (`get_user_stats`) -/

/-- The shape returned by `get_user_stats`. -/
structure StatsResult where
  total_logins : Nat
  last_login : Option String
  weekly_data : List (String × Nat)
  monthly_data : List (String × Nat)
  login_trend : Int
deriving DecidableEq, Repr

/-- The `timestamp__range=(s, e)` lookup: SQL `BETWEEN`, both ends
inclusive; empty whenever `e < s`. -/
def inRange (s e t : Nat) : Bool := s ≤ t && t ≤ e

/-- Ranged branch of `get_user_stats`: aggregate directly over the event
store, filtered to the successful events of this user inside the range.  The
dict built by iterating the queryset is the association list folded over
the filtered events; `last_login` is the maximum timestamp;
`login_trend` splits the range at `start + (period_days // 2)` days and
compares the two halves (`int(x)` truncates toward zero, as `Int.tdiv`
does). -/
def rangedStats (evs : List LoginActivityRec) (uid s e : Nat) :
    StatsResult :=
  let activities := evs.filter fun ev =>
    ev.user == uid && inRange s e ev.timestamp && ev.success
  let total_logins := activities.length
  let last_login := (activities.map (·.timestamp)).max?
  let weekly_data := activities.foldl
    (fun m ev => incKey m (weekKeyStats ev.timestamp)) []
  let monthly_data := activities.foldl
    (fun m ev => incKey m (monthKeyStats ev.timestamp)) []
  let login_trend : Int :=
    if activities.isEmpty then 0
    else
      let period_days := rangeDays s e
      let midpoint : Int := (s : Int) + (Int.fdiv period_days 2) * 86400
      let first_half := (activities.filter
        (fun ev => (ev.timestamp : Int) < midpoint)).length
      let second_half := (activities.filter
        (fun ev => midpoint ≤ (ev.timestamp : Int))).length
      if first_half = 0 then (if 0 < second_half then 100 else 0)
      else Int.tdiv (((second_half : Int) - first_half) * 100) first_half
  { total_logins := total_logins
    last_login := last_login.map fmtDateTime
    weekly_data := weekly_data
    monthly_data := monthly_data
    login_trend := login_trend }

/-- `calculate_login_trend`: percentage change between the current month
bucket and the bucket 30 days prior in `monthly_logins`, read at `now`. -/
def calculateLoginTrend (now : Nat) (c : UserCounters) : Int :=
  if c.monthly_logins = [] then 0
  else
    let cur := fmtYM (dateOf now)
    let prev := fmtYM (dateOf (now - 30 * 86400))
    let curL := lookupD c.monthly_logins cur
    let prevL := lookupD c.monthly_logins prev
    if prevL = 0 then (if 0 < curL then 100 else 0)
    else Int.tdiv (((curL : Int) - prevL) * 100) prevL

/-- No-range branch of `get_user_stats`: read the denormalized counters
(after `refresh_from_db`, i.e. the authoritative stored values). -/
def countersStats (now : Nat) (c : UserCounters) : StatsResult :=
  { total_logins := c.login_count
    last_login := c.last_login_timestamp.map fmtDateTime
    weekly_data := c.weekly_logins
    monthly_data := c.monthly_logins
    login_trend := calculateLoginTrend now c }

/-- `get_user_stats(user, start_date, end_date)`: the ranged branch runs
only when *both* bounds are supplied (`if start_date and end_date`);
otherwise the counters branch runs. -/
def getUserStats (now : Nat) (c : UserCounters)
    (evs : List LoginActivityRec) (uid : Nat)
    (sd ed : Option Nat) : StatsResult :=
  match sd, ed with
  | some s, some e => rangedStats evs uid s e
  | _, _ => countersStats now c

/-! ## Chart data builders -/

/-- A line chart: parallel `labels`, successful and failed series (the
constant dataset metadata — series names, colors — is omitted). -/
structure LineChart where
  labels : List String
  successData : List Nat
  failedData : List Nat
deriving DecidableEq, Repr

/-- The day loop `while current_date <= end_date_date`, one iteration per
calendar day; no iterations when the bounds are reversed. -/
def dayRange (a b : Nat) : List Nat :=
  if a ≤ b then (List.range (b + 1 - a)).map (a + ·) else []

/-- Count of the filtered events falling on calendar day `d` with the given
success flag (the grouped `data_map` lookup with default 0 yields exactly
this count for every day). -/
def countOnDay (l : List LoginActivityRec) (d : Nat) (flag : Bool) : Nat :=
  (l.filter fun ev => dateOf ev.timestamp == d && ev.success == flag).length

/-- `get_login_trends_data(user, start_date, end_date)`: filter the events of the
given user (successful and failed) to the range, then emit one label per
calendar day from `start.date()` to `end.date()` inclusive with the per-day
counts, zero for days with no events. -/
def trendsData (evs : List LoginActivityRec) (uid s e : Nat) : LineChart :=
  let filtered := evs.filter fun ev =>
    ev.user == uid && inRange s e ev.timestamp
  let days := dayRange (dateOf s) (dateOf e)
  { labels := days.map fmtYMD
    successData := days.map fun d => countOnDay filtered d true
    failedData := days.map fun d => countOnDay filtered d false }

/-- `get_combined_login_trends_data(users, ...)`: same builder with
`user__in=users`. -/
def combinedTrendsData (evs : List LoginActivityRec) (uids : List Nat)
    (s e : Nat) : LineChart :=
  let filtered := evs.filter fun ev =>
    uids.contains ev.user && inRange s e ev.timestamp
  let days := dayRange (dateOf s) (dateOf e)
  { labels := days.map fmtYMD
    successData := days.map fun d => countOnDay filtered d true
    failedData := days.map fun d => countOnDay filtered d false }

/-- A bar chart: labels and one data series. -/
structure BarChart where
  labels : List String
  data : List Nat
deriving DecidableEq, Repr

/-- Django `TruncWeek`: the Monday of the ISO week of the timestamp. -/
def truncWeekDay (d : Nat) : Nat := d - pyWeekday d

/-- Django `TruncMonth` as a single period number (year * 12 + month - 1),
formatted back with `%Y-%m`. -/
def monthIdx (d : Nat) : Nat := yearOfDay d * 12 + (monthOfDay d - 1)

/-- `%Y-%m` of a month period number. -/
def fmtMonthIdx (p : Nat) : String := pad4 (p / 12) ++ "-" ++ pad2 (p % 12 + 1)

/-- Insert into an ascending-sorted list. -/
def insertAsc (x : Nat) : List Nat → List Nat
  | [] => [x]
  | y :: ys => if x ≤ y then x :: y :: ys else y :: insertAsc x ys

/-- Distinct values in ascending order: the `values(period)` grouping with
`order_by(period)`. -/
def sortedDedup (l : List Nat) : List Nat :=
  l.dedup.foldr insertAsc []

theorem mem_insertAsc {a x : Nat} {l : List Nat} :
    a ∈ insertAsc x l ↔ a = x ∨ a ∈ l := by
  induction l with
  | nil => simp [insertAsc]
  | cons y ys ih =>
    by_cases h : x ≤ y
    · simp [insertAsc, h]
    · simp only [insertAsc, if_neg h, List.mem_cons, ih]
      tauto

theorem mem_sortedDedup {a : Nat} {l : List Nat} :
    a ∈ sortedDedup l ↔ a ∈ l := by
  rw [← List.mem_dedup (a := a) (l := l)]
  unfold sortedDedup
  induction l.dedup with
  | nil => simp
  | cons y ys ih => simp [mem_insertAsc, ih]

/-- The weekly branch of the comparison builder over the already-filtered
events: group by `TruncWeek`, label with `%Y-%m-%d` of the week start. -/
def weeklyComparison (filtered : List LoginActivityRec) : BarChart :=
  let periods := filtered.map fun ev => truncWeekDay (dateOf ev.timestamp)
  let uniq := sortedDedup periods
  { labels := uniq.map fmtYMD
    data := uniq.map fun p => periods.count p }

/-- The monthly branch of the comparison builder: group by `TruncMonth`,
label with `%Y-%m`. -/
def monthlyComparison (filtered : List LoginActivityRec) : BarChart :=
  let periods := filtered.map fun ev => monthIdx (dateOf ev.timestamp)
  let uniq := sortedDedup periods
  { labels := uniq.map fmtMonthIdx
    data := uniq.map fun p => periods.count p }

/-- The events `get_login_comparison_data` aggregates: the successful
events of the given user inside the range. -/
def comparisonFiltered (evs : List LoginActivityRec) (uid s e : Nat) :
    List LoginActivityRec :=
  evs.filter fun ev => ev.user == uid && inRange s e ev.timestamp && ev.success

/-- `get_login_comparison_data(user, start_date, end_date)`: weekly buckets
when `(end - start).days <= 30`, monthly buckets otherwise; only successful
events; no zero-fill. -/
def comparisonData (evs : List LoginActivityRec) (uid s e : Nat) : BarChart :=
  if rangeDays s e ≤ 30 then weeklyComparison (comparisonFiltered evs uid s e)
  else monthlyComparison (comparisonFiltered evs uid s e)

/-- The events the combined comparison builder aggregates
(`user__in=users`). -/
def combinedComparisonFiltered (evs : List LoginActivityRec)
    (uids : List Nat) (s e : Nat) : List LoginActivityRec :=
  evs.filter fun ev =>
    uids.contains ev.user && inRange s e ev.timestamp && ev.success

/-- `get_combined_login_comparison_data(users, ...)`. -/
def combinedComparisonData (evs : List LoginActivityRec) (uids : List Nat)
    (s e : Nat) : BarChart :=
  if rangeDays s e ≤ 30 then
    weeklyComparison (combinedComparisonFiltered evs uids s e)
  else monthlyComparison (combinedComparisonFiltered evs uids s e)

/-- A distribution result: success/failure counts plus the top-5 user-agent
labels and counts. -/
structure DistChart where
  successCount : Nat
  failureCount : Nat
  agentLabels : List String
  agentData : List Nat
deriving DecidableEq, Repr

/-- Insert keeping counts descending (order_by minus count). -/
def insertByCountDesc (cnt : String → Nat) (x : String) :
    List String → List String
  | [] => [x]
  | y :: ys =>
      if cnt y < cnt x then x :: y :: ys else y :: insertByCountDesc cnt x ys

/-- Top-5 most frequent user agents of a list of events. -/
def topAgents (l : List LoginActivityRec) : List String :=
  let agents := l.map (·.user_agent)
  (agents.dedup.foldr (insertByCountDesc fun a => agents.count a) []).take 5

/-- `get_login_distribution_data(user, start_date, end_date)`. -/
def distributionData (evs : List LoginActivityRec) (uid s e : Nat) :
    DistChart :=
  let windowed := evs.filter fun ev =>
    ev.user == uid && inRange s e ev.timestamp
  { successCount := (windowed.filter (·.success)).length
    failureCount := (windowed.filter fun ev => !ev.success).length
    agentLabels := topAgents windowed
    agentData := (topAgents windowed).map fun a =>
      (windowed.map (·.user_agent)).count a }

/-- `get_combined_login_distribution_data(users, ...)`. -/
def combinedDistributionData (evs : List LoginActivityRec)
    (uids : List Nat) (s e : Nat) : DistChart :=
  let windowed := evs.filter fun ev =>
    uids.contains ev.user && inRange s e ev.timestamp
  { successCount := (windowed.filter (·.success)).length
    failureCount := (windowed.filter fun ev => !ev.success).length
    agentLabels := topAgents windowed
    agentData := (topAgents windowed).map fun a =>
      (windowed.map (·.user_agent)).count a }

/-! ## Supporting lemmas for the claims -/

theorem inRange_false_of_rev {s e : Nat} (h : e < s) (t : Nat) :
    inRange s e t = false := by
  simp only [inRange, Bool.and_eq_false_iff, decide_eq_false_iff_not,
    not_le]
  omega

theorem length_dayRange {a b : Nat} (h : a ≤ b) :
    (dayRange a b).length = b - a + 1 := by
  simp [dayRange, h]
  omega

theorem mem_dayRange {a b d : Nat} (h1 : a ≤ d) (h2 : d ≤ b) :
    d ∈ dayRange a b := by
  simp only [dayRange, if_pos (le_trans h1 h2), List.mem_map,
    List.mem_range]
  exact ⟨d - a, by omega, by omega⟩

theorem pyWeekday_truncWeekDay (d : Nat) (h : pyWeekday d ≤ d) :
    pyWeekday (truncWeekDay d) = 0 := by
  simp only [truncWeekDay, pyWeekday] at h ⊢
  omega

theorem dateOf_le_dateOf {s e : Nat} (h : s ≤ e) : dateOf s ≤ dateOf e :=
  Nat.div_le_div_right h

theorem comparisonFiltered_filter_success (evs : List LoginActivityRec)
    (uid s e : Nat) :
    comparisonFiltered (evs.filter (·.success)) uid s e
      = comparisonFiltered evs uid s e := by
  unfold comparisonFiltered
  induction evs with
  | nil => rfl
  | cons ev rest ih =>
    cases hs : ev.success <;>
      simp [List.filter_cons, hs, ih]

theorem barChart_data_pos (filtered : List LoginActivityRec) :
    (∀ x ∈ (weeklyComparison filtered).data, 0 < x)
    ∧ (∀ x ∈ (monthlyComparison filtered).data, 0 < x) := by
  constructor <;>
  · intro x hx
    simp only [weeklyComparison, monthlyComparison, List.mem_map] at hx
    obtain ⟨p, hp, rfl⟩ := hx
    rw [mem_sortedDedup] at hp
    exact List.count_pos_iff.mpr hp

/-! ## The claims -/

/-- C1: after any sequence of recorded attempts, each user entry, whose denormalized
`login_count` equals the number of stored login events for that user with
`success = true`: counters start at zero on user creation and each
save of a successful event increments `login_count` by exactly one. -/
theorem login_count_matches_successful_events
    (es : List LoginActivityRec) (U : Nat) :
    ((applyAttempts es).counters U).login_count
      = (successEventsOf (applyAttempts es) U).length :=
  countInv_foldl es Store.init countInv_init U

/-- C2 (the code violates this claim): the recorder passes an
`attempted_username` keyword to `LoginActivity.objects.create`, but the
`LoginActivity` model has no such field (and its `user` foreign key is not
nullable), so the create call raises `TypeError` instead of persisting a
user-less failed event.  Evaluated at the failing input: the kwargs of
`_create_login_activity` against the field names of the model. -/
theorem create_login_activity_raises_type_error :
    createLoginActivityResult
      = Except.error "TypeError: unexpected keyword argument attempted_username"
    ∧ "attempted_username" ∉ loginActivityFields
    ∧ "attempted_username" ∈ createLoginActivityKwargs :=
  ⟨rfl, by decide, by decide⟩

/-- C3 (the code violates this claim): `validate` wraps neither
`_create_login_activity` call in try/except, so the `TypeError` the
recording raises propagates and replaces the authentication response —
on a failed attempt the caller sees the bookkeeping error instead of the
`no_active_account` validation error, and on a successful attempt the
token data is lost.  The middleware recorder, by contrast, does catch. -/
theorem recording_error_propagates_from_validate :
    serializerValidate true
      = Except.error "TypeError: unexpected keyword argument attempted_username"
    ∧ serializerValidate false
      = Except.error "TypeError: unexpected keyword argument attempted_username"
    ∧ serializerValidate false ≠ Except.error "no_active_account"
    ∧ middlewareTrack (Except.error
        "TypeError: unexpected keyword argument attempted_username")
      = Except.ok () := by
  refine ⟨rfl, rfl, ?_, rfl⟩
  intro hcontra
  exact absurd (Except.error.inj hcontra) (by decide)

/-- C4, counterexample: for an event on Sunday 2025-01-12 12:00:00 the
counter-update path files the login under week key 2025-01 (the `%Y-%U` of
the Monday-aligned week start) while the ranged statistics mode groups the
same event under 2025-02 (the `%Y-%U` of the timestamp itself). -/
theorem week_key_paths_disagree_on_sunday :
    weekKeySave 1736683200 = "2025-01"
    ∧ weekKeyStats 1736683200 = "2025-02"
    ∧ weekKeySave 1736683200 ≠ weekKeyStats 1736683200 :=
  ⟨by decide, by decide, by decide⟩

/-- C4, amended: month keys of the two paths always agree, but week keys
agree only when the weekday of the event is Monday through Saturday and the
Monday of its week falls in the same calendar year (the final hypothesis
is a fact of the day-number encoding, discharged by computation); on
Sundays, and when the Monday of the week lies in the previous year, the two
paths use different week keys. -/
theorem week_month_keys_agree_amended (t : Nat) :
    monthKeySave t = monthKeyStats t
    ∧ (pyWeekday (dateOf t) ≤ 5 →
       pyWeekday (dateOf t) ≤ dateOf t →
       yearOfDay (dateOf t - pyWeekday (dateOf t)) = yearOfDay (dateOf t) →
       jan1Day (yearOfDay (dateOf t)) ≤ dateOf t - pyWeekday (dateOf t) →
       weekKeySave t = weekKeyStats t) := by
  refine ⟨rfl, ?_⟩
  intro h5 hdl hyear hjan
  unfold weekKeySave weekKeyStats fmtYU
  have hW : weekU (dateOf t - pyWeekday (dateOf t)) = weekU (dateOf t) := by
    simp only [weekU, ydayOf, sunWeekday, pyWeekday] at *
    rw [hyear]
    omega
  rw [hyear, hW]

/-- C4, witness for the amended statement: Wednesday 2025-01-15. -/
theorem week_month_keys_agree_witness :
    monthKeySave 1736899200 = monthKeyStats 1736899200
    ∧ weekKeySave 1736899200 = weekKeyStats 1736899200 := by
  have h := week_month_keys_agree_amended 1736899200
  exact ⟨h.1, h.2 (by decide) (by decide) (by decide) (by decide)⟩

/-- C5 (the code violates this claim): `AdminDashboardView.get` calls
`get_admin_dashboard_data` with `user_ids`, `filter_type`, `start_date`
and `end_date` keywords, but the signature of that function accepts only
`role` and `me`, so every branch of the view — the explicit-id-list branch
in particular — raises `TypeError` instead of returning statistics for
the requested cohort. -/
theorem admin_dashboard_call_raises_type_error :
    callKwargs adminDashboardDataParams adminDashboardCallUserIds
      = Except.error "TypeError: unexpected keyword argument user_ids"
    ∧ callKwargs adminDashboardDataParams adminDashboardCallDefault
      = Except.error "TypeError: unexpected keyword argument filter_type"
    ∧ callKwargs adminDashboardDataParams adminDashboardCallMe
      = Except.error "TypeError: unexpected keyword argument start_date"
    ∧ "user_ids" ∉ adminDashboardDataParams :=
  ⟨rfl, rfl, rfl, by decide⟩

/-- C6: for every range with `start <= end`, the trend builder (single-user
and combined) emits exactly `(end.date() - start.date()).days + 1` labels,
one per calendar day from `start.date()` to `end.date()` inclusive — no day
omitted — and both datasets carry one (possibly zero) entry per label. -/
theorem trend_builder_one_label_per_day
    (evs : List LoginActivityRec) (uid : Nat) (uids : List Nat)
    (s e : Nat) (h : s ≤ e) :
    ((trendsData evs uid s e).labels.length = dateOf e - dateOf s + 1
      ∧ (trendsData evs uid s e).successData.length
          = (trendsData evs uid s e).labels.length
      ∧ (trendsData evs uid s e).failedData.length
          = (trendsData evs uid s e).labels.length
      ∧ ∀ d, dateOf s ≤ d → d ≤ dateOf e →
          fmtYMD d ∈ (trendsData evs uid s e).labels)
    ∧ ((combinedTrendsData evs uids s e).labels.length
          = dateOf e - dateOf s + 1
      ∧ (combinedTrendsData evs uids s e).successData.length
          = (combinedTrendsData evs uids s e).labels.length
      ∧ (combinedTrendsData evs uids s e).failedData.length
          = (combinedTrendsData evs uids s e).labels.length
      ∧ ∀ d, dateOf s ≤ d → d ≤ dateOf e →
          fmtYMD d ∈ (combinedTrendsData evs uids s e).labels) := by
  have hd := dateOf_le_dateOf h
  constructor <;>
    refine ⟨?_, ?_, ?_, fun d h1 h2 => ?_⟩ <;>
    simp only [trendsData, combinedTrendsData, List.length_map,
      length_dayRange hd, List.mem_map]
  · exact ⟨d, mem_dayRange h1 h2, rfl⟩
  · exact ⟨d, mem_dayRange h1 h2, rfl⟩

/-- C6, witness: the two-day range from 1970-01-01 00:00 to 1970-01-02
00:00 over an empty store. -/
theorem trend_builder_one_label_per_day_witness :
    (trendsData [] 0 0 86400).labels.length = dateOf 86400 - dateOf 0 + 1
    ∧ fmtYMD 0 ∈ (trendsData [] 0 0 86400).labels := by
  have h := trend_builder_one_label_per_day [] 0 [] 0 86400 (by decide)
  exact ⟨h.1.1, h.1.2.2.2 0 (by decide) (by decide)⟩

/-- C7, counterexample: a reversed range whose two ends fall on the same
calendar day (2025-01-12 12:00 down to 2025-01-12 00:00) still makes the
trend builder emit the label of that day, so the builders do not all return
empty labels on reversed ranges. -/
theorem reversed_same_day_range_keeps_label :
    1736640000 < 1736683200
    ∧ (trendsData [] 0 1736683200 1736640000).labels = ["2025-01-12"]
    ∧ (trendsData [] 0 1736683200 1736640000).labels ≠ [] :=
  ⟨by decide, by decide, by decide⟩

/-- C7, amended: on a reversed range (`end < start`) nothing raises and
every aggregate is zero: the statistics engine returns zero total, null
last login, empty maps and zero trend; the comparison and distribution
builders return empty labels and counts; the trend builders return
all-zero datasets, with empty labels exactly when the calendar day of the end
precedes the one of the start (a reversed range within one calendar day keeps that
label of that single day, with zero counts). -/
theorem reversed_range_yields_zero_results
    (evs : List LoginActivityRec) (uid : Nat) (uids : List Nat)
    (now s e : Nat) (c : UserCounters) (h : e < s) :
    rangedStats evs uid s e
        = { total_logins := 0, last_login := none, weekly_data := [],
            monthly_data := [], login_trend := 0 }
    ∧ getUserStats now c evs uid (some s) (some e)
        = { total_logins := 0, last_login := none, weekly_data := [],
            monthly_data := [], login_trend := 0 }
    ∧ comparisonData evs uid s e = { labels := [], data := [] }
    ∧ combinedComparisonData evs uids s e = { labels := [], data := [] }
    ∧ distributionData evs uid s e
        = { successCount := 0, failureCount := 0, agentLabels := [],
            agentData := [] }
    ∧ combinedDistributionData evs uids s e
        = { successCount := 0, failureCount := 0, agentLabels := [],
            agentData := [] }
    ∧ (∀ x ∈ (trendsData evs uid s e).successData, x = 0)
    ∧ (∀ x ∈ (trendsData evs uid s e).failedData, x = 0)
    ∧ (dateOf e < dateOf s → (trendsData evs uid s e).labels = [])
    ∧ (∀ x ∈ (combinedTrendsData evs uids s e).successData, x = 0)
    ∧ (∀ x ∈ (combinedTrendsData evs uids s e).failedData, x = 0)
    ∧ (dateOf e < dateOf s →
        (combinedTrendsData evs uids s e).labels = []) := by
  have hR := inRange_false_of_rev h
  refine ⟨?_, ?_, ?_, ?_, ?_, ?_, ?_, ?_, ?_, ?_, ?_, ?_⟩
  · simp [rangedStats, hR]
  · show rangedStats evs uid s e = _
    simp [rangedStats, hR]
  · simp [comparisonData, weeklyComparison, monthlyComparison,
      comparisonFiltered, hR, sortedDedup]
  · simp [combinedComparisonData, weeklyComparison, monthlyComparison,
      combinedComparisonFiltered, hR, sortedDedup]
  · simp [distributionData, topAgents, hR, sortedDedup]
  · simp [combinedDistributionData, topAgents, hR, sortedDedup]
  · intro x hx
    simp only [trendsData, hR, Bool.and_false, List.filter_false,
      List.mem_map] at hx
    obtain ⟨d, _, rfl⟩ := hx
    rfl
  · intro x hx
    simp only [trendsData, hR, Bool.and_false, List.filter_false,
      List.mem_map] at hx
    obtain ⟨d, _, rfl⟩ := hx
    rfl
  · intro hlt
    have hnle : ¬ (dateOf s ≤ dateOf e) := by omega
    simp [trendsData, dayRange, hnle]
  · intro x hx
    simp only [combinedTrendsData, hR, Bool.and_false, List.filter_false,
      List.mem_map] at hx
    obtain ⟨d, _, rfl⟩ := hx
    rfl
  · intro x hx
    simp only [combinedTrendsData, hR, Bool.and_false, List.filter_false,
      List.mem_map] at hx
    obtain ⟨d, _, rfl⟩ := hx
    rfl
  · intro hlt
    have hnle : ¬ (dateOf s ≤ dateOf e) := by omega
    simp [combinedTrendsData, dayRange, hnle]

/-- C7, witness for the amended statement: a reversed range across
different days yields the zero statistics record and an empty comparison
chart. -/
theorem reversed_range_yields_zero_results_witness :
    rangedStats [] 0 1736683200 1736550000
        = { total_logins := 0, last_login := none, weekly_data := [],
            monthly_data := [], login_trend := 0 }
    ∧ comparisonData [] 0 1736683200 1736550000
        = { labels := [], data := [] } := by
  have h := reversed_range_yields_zero_results [] 0 [] 0 1736683200
    1736550000 UserCounters.init (by decide)
  exact ⟨h.1, h.2.2.1⟩

/-- C8: the comparison builder counts only successful events, chooses
weekly buckets exactly when `(end - start).days <= 30` and monthly buckets
otherwise, emits only buckets with a strictly positive count, and labels
weekly buckets with the `%Y-%m-%d` of a week-start date (a Monday, for any
event after the first epoch week) and monthly buckets with `%Y-%m`. -/
theorem comparison_builder_buckets
    (evs : List LoginActivityRec) (uid : Nat) (s e : Nat) :
    (∀ x ∈ (comparisonData evs uid s e).data, 0 < x)
    ∧ comparisonData (evs.filter (·.success)) uid s e
        = comparisonData evs uid s e
    ∧ (rangeDays s e ≤ 30 →
        comparisonData evs uid s e
          = weeklyComparison (comparisonFiltered evs uid s e)
        ∧ ∀ l ∈ (comparisonData evs uid s e).labels,
            ∃ d, l = fmtYMD (truncWeekDay d)
              ∧ (pyWeekday d ≤ d → pyWeekday (truncWeekDay d) = 0))
    ∧ (30 < rangeDays s e →
        comparisonData evs uid s e
          = monthlyComparison (comparisonFiltered evs uid s e)
        ∧ ∀ l ∈ (comparisonData evs uid s e).labels,
            ∃ p, l = fmtMonthIdx p) := by
  refine ⟨?_, ?_, ?_, ?_⟩
  · intro x hx
    unfold comparisonData at hx
    by_cases hc : rangeDays s e ≤ 30
    · rw [if_pos hc] at hx
      exact (barChart_data_pos _).1 x hx
    · rw [if_neg hc] at hx
      exact (barChart_data_pos _).2 x hx
  · unfold comparisonData
    rw [comparisonFiltered_filter_success]
  · intro hc
    have heq : comparisonData evs uid s e
        = weeklyComparison (comparisonFiltered evs uid s e) := by
      unfold comparisonData
      rw [if_pos hc]
    refine ⟨heq, ?_⟩
    intro l hl
    rw [heq] at hl
    simp only [weeklyComparison, List.mem_map] at hl
    obtain ⟨p, hp, rfl⟩ := hl
    rw [mem_sortedDedup] at hp
    simp only [List.mem_map] at hp
    obtain ⟨ev, _, rfl⟩ := hp
    exact ⟨dateOf ev.timestamp, rfl, fun hh => pyWeekday_truncWeekDay _ hh⟩
  · intro hc
    have heq : comparisonData evs uid s e
        = monthlyComparison (comparisonFiltered evs uid s e) := by
      unfold comparisonData
      rw [if_neg (by omega)]
    refine ⟨heq, ?_⟩
    intro l hl
    rw [heq] at hl
    simp only [monthlyComparison, List.mem_map] at hl
    obtain ⟨p, hp, rfl⟩ := hl
    exact ⟨p, rfl⟩

/-- C8, witness: one successful event, an eight-day range (weekly mode),
the single bucket has count one. -/
theorem comparison_builder_buckets_witness :
    comparisonData demoAttempts 1 1736640000 1737244800
      = weeklyComparison (comparisonFiltered demoAttempts 1 1736640000
          1737244800)
    ∧ 0 < (comparisonData demoAttempts 1 1736640000 1737244800).data.headD 0
    := by
  have h := comparison_builder_buckets demoAttempts 1 1736640000 1737244800
  exact ⟨(h.2.2.1 (by decide)).1, h.1 _ (by decide)⟩

/-- C9, counterexample: the week key of an event, in the sense of section
4.1 of the spec (`%Y-%U` of the timestamp), can be absent from
`weekly_logins`.  A single successful login on Sunday 2025-01-12 leaves the
weekly map holding only the Monday-shifted save-path key 2025-01, while the
key of the event itself is 2025-02, whose lookup is zero — so the claim
that the week key of every successful event is present with a count of at
least one fails as stated. -/
theorem event_week_key_absent_from_weekly_map :
    demoEvent ∈ (applyAttempts demoAttempts).events
    ∧ demoEvent.success = true
    ∧ ((applyAttempts demoAttempts).counters 1).weekly_logins
        = [("2025-01", 1)]
    ∧ weekKeyStats demoEvent.timestamp = "2025-02"
    ∧ lookupD ((applyAttempts demoAttempts).counters 1).weekly_logins
        (weekKeyStats demoEvent.timestamp) = 0 := by
  refine ⟨by decide, by decide, by decide, by decide, by decide⟩

/-- C9, amended: after any sequence of recorded attempts, the weekly and
monthly maps of each user sum to `login_count`, and for every stored
successful event the month key (`%Y-%m` of its timestamp) and the week key
the counter path computes for it — `%Y-%U` of the Monday-aligned week
start, not of the timestamp itself — are present in the maps of the owner
with a count of at least one. -/
theorem counter_maps_reflect_login_count
    (es : List LoginActivityRec) (U : Nat) :
    sumVals ((applyAttempts es).counters U).weekly_logins
        = ((applyAttempts es).counters U).login_count
    ∧ sumVals ((applyAttempts es).counters U).monthly_logins
        = ((applyAttempts es).counters U).login_count
    ∧ ∀ e ∈ (applyAttempts es).events, e.user = U → e.success = true →
        1 ≤ lookupD ((applyAttempts es).counters U).weekly_logins
              (weekKeySave e.timestamp)
        ∧ 1 ≤ lookupD ((applyAttempts es).counters U).monthly_logins
              (monthKeySave e.timestamp) :=
  mapsInv_foldl es Store.init mapsInv_init U

/-- C9, witness: the single successful demo attempt. -/
theorem counter_maps_reflect_login_count_witness :
    sumVals ((applyAttempts demoAttempts).counters 1).weekly_logins
        = ((applyAttempts demoAttempts).counters 1).login_count
    ∧ 1 ≤ lookupD ((applyAttempts demoAttempts).counters 1).weekly_logins
          (weekKeySave 1736683200) := by
  have h := counter_maps_reflect_login_count demoAttempts 1
  exact ⟨h.1, (h.2.2 demoEvent (by decide) (by decide) (by decide)).1⟩

/-- C10: when exactly one of the two bounds is supplied, `get_user_stats`
takes its counters branch (`if start_date and end_date` is false), so the
result is identical to the no-range call and the single bound is ignored;
the no-range call reads the denormalized counters. -/
theorem single_bound_ignored_in_user_stats
    (now : Nat) (c : UserCounters) (evs : List LoginActivityRec)
    (uid : Nat) (s e : Nat) :
    getUserStats now c evs uid (some s) none
        = getUserStats now c evs uid none none
    ∧ getUserStats now c evs uid none (some e)
        = getUserStats now c evs uid none none
    ∧ getUserStats now c evs uid none none = countersStats now c :=
  ⟨rfl, rfl, rfl⟩

end TddBackend
